import Mathlib

set_option maxHeartbeats 1000000

/-!
Shallow embedding of `archivehandler.go` from the `archiver` package.
External collaborators (the filesystem, `path/filepath` helpers, and the
zip / 7z / gzip+tar codecs) are modelled as an environment of pure
functions; the package's own logic is transcribed function by function.
Byte contents are lists of naturals, errors are an explicit inductive.
-/

/-- Errors surfaced by collaborator calls and by the package itself.
`wrapped p e` models `fmt.Errorf("Could not open %s.  %w", p, e)`;
`eof` models `io.EOF`; `msg` models `errors.New`. -/
inductive GoError where
  | ioError : String → GoError
  | eof : GoError
  | wrapped : String → GoError → GoError
  | msg : String → GoError
deriving DecidableEq, Repr

/-- The archive-type enumeration, mirroring the Go iota constants. -/
inductive ArchiveType where
  | ARCHIVE_UNINIT
  | ARCHIVE_NA
  | ARCHIVE_ZIP
  | ARCHIVE_TGZ
  | ARCHIVE_7Z
deriving DecidableEq, Repr

/-- The `ArchivedFile` record: one item of an archive's catalog.
Field order follows the Go struct literal order used by the catalogers. -/
structure ArchivedFile where
  archivefile : String
  archivetype : ArchiveType
  name : String
  size : Nat
  IsDir : Bool
  mode : Nat
  modTime : Nat
deriving DecidableEq, Repr

/-- The `ArchiveInfo` record: one archive file on disk plus its catalog. -/
structure ArchiveInfo where
  path : String
  name : String
  fullname : String
  size : Nat
  archiveType : ArchiveType
  files : List ArchivedFile
deriving DecidableEq, Repr

/-- One entry as the zip codec (`zip.File`) reports it: name,
`UncompressedSize64`, directory flag, mode, modification time, a possible
error from `Open`, and the decompressed payload a successful reader
delivers. -/
structure ZipEntry where
  name : String
  uncompressedSize64 : Nat
  isDir : Bool
  mode : Nat
  modTime : Nat
  openErr : Option GoError
  payload : List Nat
deriving DecidableEq, Repr

/-- One entry as the 7z codec (`sevenzip.File`) reports it; `size` is
what `FileInfo().Size()` returns and `modified` the `Modified` field. -/
structure SzEntry where
  name : String
  size : Nat
  isDir : Bool
  mode : Nat
  modified : Nat
  openErr : Option GoError
  payload : List Nat
deriving DecidableEq, Repr

/-- One tar stream header (`tar.Header`) together with the payload that
follows it. `isDir` records what the header's `FileInfo` would report;
the tgz cataloger ignores it and hard-codes `false`. -/
structure TarHeader where
  name : String
  size : Nat
  isDir : Bool
  fileInfoMode : Nat
  modTime : Nat
  payload : List Nat
deriving DecidableEq, Repr

/-- The collaborators: path helpers from `os` and `path/filepath`,
`os.Stat` (file size), `os.Open` plus `Read` (file contents), and the
three codec openers. A tgz stream is its header list plus the terminal
error its final `Next` returns (`GoError.eof` for a clean end of
archive; anything else is a mid-stream failure). -/
structure Env where
  pathSep : Char
  dirFn : String → String
  baseFn : String → String
  cwd : String
  joinFn : String → String → String
  statSize : String → Except GoError Nat
  openFile : String → Except GoError (List Nat)
  zipOpen : String → Except GoError (List ZipEntry)
  szOpen : String → Except GoError (List SzEntry)
  tgzOpen : String → Except GoError (List TarHeader × GoError)

/-- A single `Read` into a zero-initialised buffer of length `n`: the
reader delivers as much of `contents` as fits; the rest of the buffer
stays zero. -/
def readInto (n : Nat) (contents : List Nat) : List Nat :=
  contents.take n ++ List.replicate (n - contents.length) 0

/-- `ArchiveInfo.File`: exact-name lookup. `slices.IndexFunc` returns
the first index whose entry name equals `fname` (`none` models `-1`);
the entry at that index is returned. -/
def ArchiveInfo.File (ai : ArchiveInfo) (fname : String) : Option ArchivedFile :=
  if ai.files.length = 0 then none
  else
    match ai.files.findIdx? (fun e => e.name == fname) with
    | none => none
    | some idx => ai.files[idx]?

/-- `extractZipFileBytes`: reopen the container at `af.archivefile`,
scan for the first entry named `af.name`, and fill a buffer of length
`af.size` with one read of its payload. A failing container open yields
the wrapped error; a missing name leaves the zeroed buffer; an entry
`Open` failure is returned as-is. -/
def ArchivedFile.extractZipFileBytes (env : Env) (af : ArchivedFile) :
    Option (List Nat) × Option GoError :=
  match env.zipOpen af.archivefile with
  | Except.error e => (none, some (GoError.wrapped af.archivefile e))
  | Except.ok entries =>
    match entries.find? (fun z => z.name == af.name) with
    | none => (some (List.replicate af.size 0), none)
    | some z =>
      match z.openErr with
      | some e => (none, some e)
      | none => (some (readInto af.size z.payload), none)

/-- `extract7ZFileBytes`: same shape as the zip extractor, against the
7z codec. -/
def ArchivedFile.extract7ZFileBytes (env : Env) (af : ArchivedFile) :
    Option (List Nat) × Option GoError :=
  match env.szOpen af.archivefile with
  | Except.error e => (none, some (GoError.wrapped af.archivefile e))
  | Except.ok entries =>
    match entries.find? (fun z => z.name == af.name) with
    | none => (some (List.replicate af.size 0), none)
    | some z =>
      match z.openErr with
      | some e => (none, some e)
      | none => (some (readInto af.size z.payload), none)

/-- `extractTgzFileBytes`: open the gzip+tar stream, advance `Next` past
mismatching headers, then issue one `Read`. When the name never matches,
the scan ends with the stream's terminal error (`io.EOF` at a clean
end), the `Read` fills nothing, and the function returns the zeroed
buffer together with that terminal error. -/
def ArchivedFile.extractTgzFileBytes (env : Env) (af : ArchivedFile) :
    Option (List Nat) × Option GoError :=
  match env.tgzOpen af.archivefile with
  | Except.error e => (none, some (GoError.wrapped af.archivefile e))
  | Except.ok (headers, tEnd) =>
    match headers.find? (fun h => h.name == af.name) with
    | none => (some (List.replicate af.size 0), some tEnd)
    | some h => (some (readInto af.size h.payload), none)

/-- `GetBytes`: dispatch on the entry's container-type tag; any tag
other than the three known kinds yields the
"unsupported archive type" error. -/
def ArchivedFile.GetBytes (env : Env) (af : ArchivedFile) :
    Option (List Nat) × Option GoError :=
  match af.archivetype with
  | ArchiveType.ARCHIVE_7Z => af.extract7ZFileBytes env
  | ArchiveType.ARCHIVE_TGZ => af.extractTgzFileBytes env
  | ArchiveType.ARCHIVE_ZIP => af.extractZipFileBytes env
  | _ => (none, some (GoError.msg "unsupported archive type"))

/-- `loadFilesInZipArchive`: a failing codec open returns the wrapped
error with no entries appended; otherwise every codec entry is appended
to the catalog in codec order and `nil` is returned. -/
def ArchiveInfo.loadFilesInZipArchive (env : Env) (ar : ArchiveInfo) :
    ArchiveInfo × Option GoError :=
  match env.zipOpen ar.fullname with
  | Except.error e => (ar, some (GoError.wrapped ar.fullname e))
  | Except.ok entries =>
    ({ ar with files := ar.files ++ entries.map (fun z =>
        ⟨ar.fullname, ArchiveType.ARCHIVE_ZIP, z.name, z.uncompressedSize64,
         z.isDir, z.mode, z.modTime⟩) }, none)

/-- `loadFilesIn7ZArchive`: same shape as the zip cataloger, against the
7z codec. -/
def ArchiveInfo.loadFilesIn7ZArchive (env : Env) (ar : ArchiveInfo) :
    ArchiveInfo × Option GoError :=
  match env.szOpen ar.fullname with
  | Except.error e => (ar, some (GoError.wrapped ar.fullname e))
  | Except.ok entries =>
    ({ ar with files := ar.files ++ entries.map (fun z =>
        ⟨ar.fullname, ArchiveType.ARCHIVE_7Z, z.name, z.size,
         z.isDir, z.mode, z.modified⟩) }, none)

/-- `loadFilesInTgzArchive`: a failing open returns the wrapped error;
otherwise every header read before the terminal condition is appended
(with a hard-coded `false` directory flag), and the terminal error is
returned unless it is the clean `io.EOF` sentinel. -/
def ArchiveInfo.loadFilesInTgzArchive (env : Env) (ar : ArchiveInfo) :
    ArchiveInfo × Option GoError :=
  match env.tgzOpen ar.fullname with
  | Except.error e => (ar, some (GoError.wrapped ar.fullname e))
  | Except.ok (headers, tEnd) =>
    ({ ar with files := ar.files ++ headers.map (fun h =>
        ⟨ar.fullname, ArchiveType.ARCHIVE_TGZ, h.name, h.size, false,
         h.fileInfoMode, h.modTime⟩) },
     if tEnd = GoError.eof then none else some tEnd)

/-- `getArchiveType`: a file smaller than 5 bytes is classified
`ARCHIVE_NA` without opening it; otherwise the file is opened, 5 leading
bytes are read into a zeroed 5-byte buffer (a read on an empty file
returns `io.EOF`), and fixed magic signatures are compared in order:
zip, then 7z, then gzip, else not-an-archive. -/
def ArchiveInfo.getArchiveType (env : Env) (ar : ArchiveInfo) :
    ArchiveInfo × Option GoError :=
  if ar.size < 5 then ({ ar with archiveType := ArchiveType.ARCHIVE_NA }, none)
  else
    match env.openFile ar.fullname with
    | Except.error e => (ar, some e)
    | Except.ok contents =>
      if contents.isEmpty then (ar, some GoError.eof)
      else
        let filebytes := readInto 5 contents
        let t :=
          if filebytes.getD 0 0 = 0x50 ∧ filebytes.getD 1 0 = 0x4B ∧
             filebytes.getD 2 0 = 0x03 ∧ filebytes.getD 3 0 = 0x04 then
            ArchiveType.ARCHIVE_ZIP
          else if filebytes.getD 0 0 = 0x37 ∧ filebytes.getD 1 0 = 0x7A ∧
                  filebytes.getD 2 0 = 0xBC ∧ filebytes.getD 3 0 = 0xAF then
            ArchiveType.ARCHIVE_7Z
          else if filebytes.getD 0 0 = 0x1F ∧ filebytes.getD 1 0 = 0x8B then
            ArchiveType.ARCHIVE_TGZ
          else ArchiveType.ARCHIVE_NA
        ({ ar with archiveType := t }, none)

/-- The switch at the end of `GetArchiveInfo`: dispatch to the cataloger
matching the detected type; `ARCHIVE_UNINIT` and `ARCHIVE_NA` invoke no
cataloger. -/
def catalogStep (env : Env) (ar : ArchiveInfo) : ArchiveInfo × Option GoError :=
  match ar.archiveType with
  | ArchiveType.ARCHIVE_7Z => ar.loadFilesIn7ZArchive env
  | ArchiveType.ARCHIVE_TGZ => ar.loadFilesInTgzArchive env
  | ArchiveType.ARCHIVE_ZIP => ar.loadFilesInZipArchive env
  | _ => (ar, none)

/-- The tail of `GetArchiveInfo` after path resolution: join the path,
stat the file, sniff the type, then catalog. A stat failure or a sniff
failure is returned with no cataloging. -/
def statAndCatalog (env : Env) (ar0 : ArchiveInfo) : ArchiveInfo × Option GoError :=
  let ar1 := { ar0 with fullname := env.joinFn ar0.path ar0.name }
  match env.statSize ar1.fullname with
  | Except.error e => (ar1, some e)
  | Except.ok sz =>
    match ArchiveInfo.getArchiveType env { ar1 with size := sz } with
    | (ar2, some e) => (ar2, some e)
    | (ar2, none) => catalogStep env ar2

/-- `strings.Contains(path, string(os.PathSeparator))` for the
one-character separator: whether the character occurs in the string. -/
def strContainsChar (s : String) (c : Char) : Bool :=
  s.data.contains c

/-- `GetArchiveInfo`: resolve the input path (a path containing a
separator is split by `filepath.Dir` and `filepath.Base`; a bare name is
resolved against the working directory), then stat, sniff and catalog.
When the resolved directory string is empty the function prints a
diagnostic and returns the zero-valued handle with a `nil` error. -/
def GetArchiveInfo (env : Env) (path : String) : ArchiveInfo × Option GoError :=
  let arInit : ArchiveInfo :=
    { path := "", name := "", fullname := "", size := 0,
      archiveType := ArchiveType.ARCHIVE_UNINIT, files := [] }
  if strContainsChar path env.pathSep then
    let pathName := env.dirFn path
    if pathName.length = 0 then (arInit, none)
    else statAndCatalog env { arInit with path := pathName, name := env.baseFn path }
  else statAndCatalog env { arInit with path := env.cwd, name := path }

/-! Concrete fixtures used by witness and counterexample theorems. -/

/-- A zip codec entry fixture. -/
def zEnt : ZipEntry := ⟨"f.txt", 2, false, 420, 100, none, [7, 9]⟩

/-- A 7z codec entry fixture. -/
def sEnt : SzEntry := ⟨"g.txt", 3, false, 420, 100, none, [4, 5, 6]⟩

/-- A tar header fixture; its directory flag is deliberately `true`. -/
def tHdr : TarHeader := ⟨"h.txt", 1, true, 420, 100, [8]⟩

/-- A well-behaved environment: every path stats at 9 bytes, reads as a
zip-magic file, and each codec yields one entry. -/
def sampleEnv : Env :=
  { pathSep := '/'
    dirFn := fun s => s
    baseFn := fun s => s
    cwd := "/w"
    joinFn := fun a b => a ++ "/" ++ b
    statSize := fun _ => Except.ok 9
    openFile := fun _ => Except.ok [0x50, 0x4B, 0x03, 0x04, 0x00]
    zipOpen := fun _ => Except.ok [zEnt]
    szOpen := fun _ => Except.ok [sEnt]
    tgzOpen := fun _ => Except.ok ([tHdr], GoError.eof) }

/-- Environment whose files carry no known magic signature. -/
def naBytesEnv : Env :=
  { sampleEnv with openFile := fun _ => Except.ok [1, 2, 3, 4, 5] }

/-- Environment whose tgz stream ends in a mid-stream corruption error
after one header. -/
def corruptTgzEnv : Env :=
  { sampleEnv with
    openFile := fun _ => Except.ok [0x1F, 0x8B, 0x08, 0x00, 0x00]
    tgzOpen := fun _ => Except.ok ([tHdr], GoError.ioError "corrupt") }

/-- Environment whose directory resolver returns an empty string. -/
def emptyDirEnv : Env :=
  { sampleEnv with dirFn := fun _ => "" }

/-- Environment whose zip and 7z openers fail and whose tgz stream fails
mid-stream. -/
def failZipEnv : Env :=
  { sampleEnv with
    zipOpen := fun _ => Except.error (GoError.ioError "bad")
    szOpen := fun _ => Except.error (GoError.ioError "bad")
    tgzOpen := fun _ => Except.ok ([tHdr], GoError.ioError "mid") }

/-- An archive record before cataloging. -/
def wAr : ArchiveInfo := ⟨"/w", "a.zip", "/w/a.zip", 9, ArchiveType.ARCHIVE_ZIP, []⟩

/-- An archive record before sniffing. -/
def wAr2 : ArchiveInfo := ⟨"/w", "a.zip", "/w/a.zip", 9, ArchiveType.ARCHIVE_UNINIT, []⟩

/-- An archive record for a file smaller than 5 bytes. -/
def wAr7 : ArchiveInfo := ⟨"/w", "tiny.bin", "/w/tiny.bin", 3, ArchiveType.ARCHIVE_UNINIT, []⟩

/-- An archive record for a tgz container, before cataloging. -/
def wAr10 : ArchiveInfo := ⟨"/w", "t.tgz", "/w/t.tgz", 9, ArchiveType.ARCHIVE_TGZ, []⟩

/-- The catalog entry the tgz cataloger produces from `tHdr`. -/
def wAfT : ArchivedFile := ⟨"/w/t.tgz", ArchiveType.ARCHIVE_TGZ, "h.txt", 1, false, 420, 100⟩

/-- The catalog entry the zip cataloger produces from `zEnt`. -/
def wAfZ : ArchivedFile := ⟨"/w/a.zip", ArchiveType.ARCHIVE_ZIP, "f.txt", 2, false, 420, 100⟩

/-- An entry whose name matches nothing in its tgz container. -/
def c4Af : ArchivedFile := ⟨"/w/t.tgz", ArchiveType.ARCHIVE_TGZ, "zz", 2, false, 0, 0⟩

/-- An entry with an unknown container-type tag. -/
def wAf8 : ArchivedFile := ⟨"/w/a.bin", ArchiveType.ARCHIVE_UNINIT, "x", 0, false, 0, 0⟩

/-- First of two catalog entries sharing the name `dup`. -/
def afDupA : ArchivedFile := ⟨"/w/a.zip", ArchiveType.ARCHIVE_ZIP, "dup", 1, false, 0, 0⟩

/-- Second of two catalog entries sharing the name `dup`. -/
def afDupB : ArchivedFile := ⟨"/w/a.zip", ArchiveType.ARCHIVE_ZIP, "dup", 2, false, 0, 0⟩

/-- An archive record whose catalog holds two same-named entries. -/
def aiDup : ArchiveInfo := ⟨"/w", "a.zip", "/w/a.zip", 9, ArchiveType.ARCHIVE_ZIP, [afDupA, afDupB]⟩

/-! Helper lemmas shared by the claim theorems. -/

/-- Filling a buffer sized exactly to the payload reproduces the payload. -/
theorem readInto_length_self (p : List Nat) : readInto p.length p = p := by
  simp [readInto]

/-- The start index of `findIdx?` bounds any returned index from below. -/
theorem findIdx?_start_le {α : Type} (p : α → Bool) :
    ∀ (l : List α) (i idx : Nat), l.findIdx? p i = some idx → i ≤ idx := by
  intro l
  induction l with
  | nil => intro i idx h; simp [List.findIdx?] at h
  | cons x xs ih =>
    intro i idx h
    rw [List.findIdx?_cons] at h
    by_cases hp : p x
    · rw [if_pos hp] at h
      injection h with h
      omega
    · rw [if_neg (by simpa using hp)] at h
      have := ih (i + 1) idx h
      omega

/-- Looking up the index returned by `findIdx?` is the same as `find?`. -/
theorem findIdx?_lookup_eq_find? {α : Type} (p : α → Bool) :
    ∀ (l : List α) (i : Nat),
      (match l.findIdx? p i with
       | none => none
       | some idx => l[idx - i]?) = l.find? p := by
  intro l
  induction l with
  | nil => intro i; simp [List.findIdx?]
  | cons x xs ih =>
    intro i
    rw [List.findIdx?_cons]
    by_cases hp : p x
    · simp [hp, List.find?]
    · rw [if_neg (by simpa using hp)]
      rw [List.find?_cons_of_neg _ (by simpa using hp)]
      rcases h : xs.findIdx? p (i + 1) with _ | idx
      · have hih := ih (i + 1)
        rw [h] at hih
        exact hih
      · have hle : i + 1 ≤ idx := findIdx?_start_le p xs (i + 1) idx h
        have hih := ih (i + 1)
        rw [h] at hih
        have h1 : idx - i = (idx - (i + 1)) + 1 := by omega
        have h2 : (x :: xs)[(idx - (i + 1)) + 1]? = xs[idx - (i + 1)]? := by
          simp
        show (x :: xs)[idx - i]? = xs.find? p
        rw [h1, h2]
        exact hih

/-- `ArchiveInfo.File` is the first entry whose name matches. -/
theorem File_eq_find? (ai : ArchiveInfo) (fname : String) :
    ai.File fname = ai.files.find? (fun e => e.name == fname) := by
  unfold ArchiveInfo.File
  rcases hl : ai.files with _ | ⟨x, xs⟩
  · simp
  · rw [if_neg (by simp)]
    have := findIdx?_lookup_eq_find? (fun e => e.name == fname) (x :: xs) 0
    simpa using this

/-- A successful `find?` result is the first match: it sits at an index
before which no element satisfies the predicate. -/
theorem find?_some_first {α : Type} (p : α → Bool) :
    ∀ (l : List α) (a : α), l.find? p = some a →
      ∃ i, ∃ h : i < l.length, l.get ⟨i, h⟩ = a ∧
        ∀ j, ∀ hj : j < l.length, j < i → p (l.get ⟨j, hj⟩) = false := by
  intro l
  induction l with
  | nil => intro a h; simp at h
  | cons x xs ih =>
    intro a h
    by_cases hp : p x
    · rw [List.find?_cons_of_pos _ hp] at h
      injection h with h
      exact ⟨0, by simp, by simpa using h, fun j hj hj0 => absurd hj0 (by omega)⟩
    · rw [List.find?_cons_of_neg _ (by simpa using hp)] at h
      obtain ⟨i, hi, hget, hfirst⟩ := ih a h
      refine ⟨i + 1, by simpa using Nat.succ_lt_succ hi, hget, ?_⟩
      intro j hj hji
      match j with
      | 0 => simpa using hp
      | j + 1 =>
        have hj' : j < xs.length := by simpa using Nat.lt_of_succ_lt_succ hj
        have := hfirst j hj' (by omega)
        simpa using this

/-- In a list whose names are pairwise distinct, searching for the name
of a member finds exactly that member. -/
theorem find?_nodup_name {α : Type} (nameOf : α → String) :
    ∀ (l : List α) (z : α), z ∈ l → (l.map nameOf).Nodup →
      l.find? (fun e => nameOf e == nameOf z) = some z := by
  intro l
  induction l with
  | nil => intro z hz; cases hz
  | cons x xs ih =>
    intro z hz hnd
    rcases List.mem_cons.mp hz with h | h
    · subst h
      exact List.find?_cons_of_pos _ (by simp)
    · have hnd' : (xs.map nameOf).Nodup := (List.nodup_cons.mp hnd).2
      have hx : nameOf x ∉ xs.map nameOf := (List.nodup_cons.mp hnd).1
      have hne : nameOf x ≠ nameOf z := by
        intro hEq
        exact hx (hEq ▸ List.mem_map_of_mem nameOf h)
      rw [List.find?_cons_of_neg _ (by simpa using hne)]
      exact ih z h hnd'

/-- An empty catalog makes every lookup miss. -/
theorem File_empty (ai : ArchiveInfo) (h : ai.files = []) (n : String) :
    ai.File n = none := by
  simp [ArchiveInfo.File, h]

/-- A failing zip codec open aborts the zip cataloger with the wrapped
error and an unchanged record. -/
theorem loadZip_err (env : Env) (ar : ArchiveInfo) (e : GoError)
    (h : env.zipOpen ar.fullname = Except.error e) :
    ar.loadFilesInZipArchive env = (ar, some (GoError.wrapped ar.fullname e)) := by
  simp [ArchiveInfo.loadFilesInZipArchive, h]

/-- A successful zip codec open appends every entry and returns no error. -/
theorem loadZip_ok (env : Env) (ar : ArchiveInfo) (entries : List ZipEntry)
    (h : env.zipOpen ar.fullname = Except.ok entries) :
    ar.loadFilesInZipArchive env =
      ({ ar with files := ar.files ++ entries.map (fun z =>
          ⟨ar.fullname, ArchiveType.ARCHIVE_ZIP, z.name, z.uncompressedSize64,
           z.isDir, z.mode, z.modTime⟩) }, none) := by
  simp [ArchiveInfo.loadFilesInZipArchive, h]

/-- A failing 7z codec open aborts the 7z cataloger with the wrapped
error and an unchanged record. -/
theorem loadSz_err (env : Env) (ar : ArchiveInfo) (e : GoError)
    (h : env.szOpen ar.fullname = Except.error e) :
    ar.loadFilesIn7ZArchive env = (ar, some (GoError.wrapped ar.fullname e)) := by
  simp [ArchiveInfo.loadFilesIn7ZArchive, h]

/-- A successful 7z codec open appends every entry and returns no error. -/
theorem loadSz_ok (env : Env) (ar : ArchiveInfo) (entries : List SzEntry)
    (h : env.szOpen ar.fullname = Except.ok entries) :
    ar.loadFilesIn7ZArchive env =
      ({ ar with files := ar.files ++ entries.map (fun z =>
          ⟨ar.fullname, ArchiveType.ARCHIVE_7Z, z.name, z.size,
           z.isDir, z.mode, z.modified⟩) }, none) := by
  simp [ArchiveInfo.loadFilesIn7ZArchive, h]

/-- A failing tgz open aborts the tgz cataloger with the wrapped error
and an unchanged record. -/
theorem loadTgz_err (env : Env) (ar : ArchiveInfo) (e : GoError)
    (h : env.tgzOpen ar.fullname = Except.error e) :
    ar.loadFilesInTgzArchive env = (ar, some (GoError.wrapped ar.fullname e)) := by
  simp [ArchiveInfo.loadFilesInTgzArchive, h]

/-- A successfully opened tgz stream appends every header read before
the terminal condition; the terminal error is surfaced unless it is the
clean end-of-archive sentinel. -/
theorem loadTgz_ok (env : Env) (ar : ArchiveInfo) (headers : List TarHeader)
    (tEnd : GoError) (h : env.tgzOpen ar.fullname = Except.ok (headers, tEnd)) :
    ar.loadFilesInTgzArchive env =
      ({ ar with files := ar.files ++ headers.map (fun hd =>
          ⟨ar.fullname, ArchiveType.ARCHIVE_TGZ, hd.name, hd.size, false,
           hd.fileInfoMode, hd.modTime⟩) },
       if tEnd = GoError.eof then none else some tEnd) := by
  simp [ArchiveInfo.loadFilesInTgzArchive, h]

/-- The catalogers never change the detected archive type. -/
theorem load_archiveType (env : Env) (ar : ArchiveInfo) :
    ((ar.loadFilesInZipArchive env).1.archiveType = ar.archiveType) ∧
    ((ar.loadFilesIn7ZArchive env).1.archiveType = ar.archiveType) ∧
    ((ar.loadFilesInTgzArchive env).1.archiveType = ar.archiveType) := by
  refine ⟨?_, ?_, ?_⟩
  · rcases h : env.zipOpen ar.fullname with e | entries <;>
      simp [ArchiveInfo.loadFilesInZipArchive, h]
  · rcases h : env.szOpen ar.fullname with e | entries <;>
      simp [ArchiveInfo.loadFilesIn7ZArchive, h]
  · rcases h : env.tgzOpen ar.fullname with e | st
    · simp [ArchiveInfo.loadFilesInTgzArchive, h]
    · rcases st with ⟨headers, tEnd⟩
      simp [ArchiveInfo.loadFilesInTgzArchive, h]

/-- The sniffer leaves the catalog untouched. -/
theorem getArchiveType_files (env : Env) (ar : ArchiveInfo) :
    (ArchiveInfo.getArchiveType env ar).1.files = ar.files := by
  unfold ArchiveInfo.getArchiveType
  by_cases h5 : ar.size < 5
  · simp [h5]
  · rw [if_neg h5]
    rcases h : env.openFile ar.fullname with e | contents
    · simp
    · by_cases he : contents.isEmpty <;> simp [he]

/-- The sniffer does not consult the codec openers: swapping them out
changes nothing about its result. -/
theorem getArchiveType_codec_indep (env : Env) (ar : ArchiveInfo)
    (z : String → Except GoError (List ZipEntry))
    (s : String → Except GoError (List SzEntry))
    (t : String → Except GoError (List TarHeader × GoError)) :
    ArchiveInfo.getArchiveType { env with zipOpen := z, szOpen := s, tgzOpen := t } ar
      = ArchiveInfo.getArchiveType env ar := rfl

/-! Claim theorems. -/

/-- Claim C3: `File` performs an exact, case- and separator-sensitive
string match by linear scan, returning the first matching entry; a name
equal to no cataloged entry's name yields `none`, never a false match. -/
theorem File_exact_first_match (ai : ArchiveInfo) (fname : String) :
    (ai.File fname = none ↔ ∀ f ∈ ai.files, f.name ≠ fname) ∧
    (∀ f, ai.File fname = some f →
      f.name = fname ∧ ∃ i, ∃ h : i < ai.files.length,
        ai.files.get ⟨i, h⟩ = f ∧
        ∀ j, ∀ hj : j < ai.files.length, j < i →
          (ai.files.get ⟨j, hj⟩).name ≠ fname) := by
  constructor
  · rw [File_eq_find?, List.find?_eq_none]
    constructor
    · intro h f hf
      simpa using h f hf
    · intro h f hf
      simpa using h f hf
  · intro f hf
    rw [File_eq_find?] at hf
    have hname : f.name = fname := by simpa using List.find?_some hf
    obtain ⟨i, hi, hget, hfirst⟩ := find?_some_first _ _ _ hf
    exact ⟨hname, i, hi, hget, fun j hj hji => by simpa using hfirst j hj hji⟩

/-- Witness for C3 at concrete inputs: a missing name yields `none`, and
with two same-named entries the first one is returned with the matching
name. -/
theorem File_exact_first_match_witness :
    aiDup.File "zz" = none ∧ aiDup.File "dup" = some afDupA ∧ afDupA.name = "dup" := by
  refine ⟨(File_exact_first_match aiDup "zz").1.mpr (by decide), by decide, ?_⟩
  exact ((File_exact_first_match aiDup "dup").2 afDupA (by decide)).1

/-- Claim C7: a file smaller than 5 bytes is classified `ARCHIVE_NA`
with no error, and the classification never touches the file's bytes:
the result is the same under any environment. -/
theorem detect_small_file (env : Env) (ar : ArchiveInfo) (h : ar.size < 5) :
    ArchiveInfo.getArchiveType env ar =
      ({ ar with archiveType := ArchiveType.ARCHIVE_NA }, none) ∧
    ∀ env2 : Env, ArchiveInfo.getArchiveType env ar =
      ArchiveInfo.getArchiveType env2 ar := by
  have hmain : ∀ e : Env, ArchiveInfo.getArchiveType e ar =
      ({ ar with archiveType := ArchiveType.ARCHIVE_NA }, none) := by
    intro e
    unfold ArchiveInfo.getArchiveType
    rw [if_pos h]
  exact ⟨hmain env, fun env2 => (hmain env).trans (hmain env2).symm⟩

/-- Witness for C7: a 3-byte file is classified `ARCHIVE_NA`. -/
theorem detect_small_file_witness :
    ArchiveInfo.getArchiveType sampleEnv wAr7 =
      ({ wAr7 with archiveType := ArchiveType.ARCHIVE_NA }, none) :=
  (detect_small_file sampleEnv wAr7 (by decide)).1

/-- Claim C8: `GetBytes` on a tag that is none of the three known kinds
returns the "unsupported archive type" error with no byte sequence, and
on each known tag dispatches to the matching extractor. -/
theorem GetBytes_dispatch (env : Env) (af : ArchivedFile) :
    (af.archivetype ≠ ArchiveType.ARCHIVE_ZIP →
     af.archivetype ≠ ArchiveType.ARCHIVE_7Z →
     af.archivetype ≠ ArchiveType.ARCHIVE_TGZ →
      af.GetBytes env = (none, some (GoError.msg "unsupported archive type"))) ∧
    (af.archivetype = ArchiveType.ARCHIVE_ZIP →
      af.GetBytes env = af.extractZipFileBytes env) ∧
    (af.archivetype = ArchiveType.ARCHIVE_TGZ →
      af.GetBytes env = af.extractTgzFileBytes env) ∧
    (af.archivetype = ArchiveType.ARCHIVE_7Z →
      af.GetBytes env = af.extract7ZFileBytes env) := by
  rcases af with ⟨a, t, n, s, d, m, mt⟩
  cases t <;> simp [ArchivedFile.GetBytes]

/-- Witness for C8: an `ARCHIVE_UNINIT`-tagged entry produces the
unsupported-type error. -/
theorem GetBytes_dispatch_witness :
    ArchivedFile.GetBytes sampleEnv wAf8 =
      (none, some (GoError.msg "unsupported archive type")) :=
  (GetBytes_dispatch sampleEnv wAf8).1 (by decide) (by decide) (by decide)

/-- Claim C10: every entry the tgz cataloger produces has `IsDir = false`,
whatever the tar headers say — the flag is hard-coded, not read from the
codec. -/
theorem tgz_isdir_hardcoded_false (env : Env) (ar : ArchiveInfo)
    (headers : List TarHeader) (tEnd : GoError)
    (hopen : env.tgzOpen ar.fullname = Except.ok (headers, tEnd))
    (h0 : ar.files = []) :
    ∀ af ∈ (ar.loadFilesInTgzArchive env).1.files, af.IsDir = false := by
  intro af haf
  rw [loadTgz_ok env ar headers tEnd hopen] at haf
  simp [h0] at haf
  obtain ⟨hd, _, rfl⟩ := haf
  rfl

/-- Witness for C10: `tHdr` describes a directory, yet the cataloged
entry built from it carries `IsDir = false`. -/
theorem tgz_isdir_hardcoded_false_witness :
    tHdr.isDir = true ∧
    wAfT ∈ (ArchiveInfo.loadFilesInTgzArchive sampleEnv wAr10).1.files ∧
    wAfT.IsDir = false :=
  ⟨rfl, by decide,
   tgz_isdir_hardcoded_false sampleEnv wAr10 [tHdr] GoError.eof rfl rfl wAfT (by decide)⟩

/-- Claim C5: a codec open failure aborts cataloging with an error
wrapping the offending path and appends nothing; a successful zip or 7z
open appends the full catalog with no error; only a tgz stream can fail
mid-stream, returning its terminal error while the already-appended
entries stay visible. -/
theorem catalog_failure_modes (env : Env) (ar : ArchiveInfo) :
    (∀ e, env.zipOpen ar.fullname = Except.error e →
      ar.loadFilesInZipArchive env = (ar, some (GoError.wrapped ar.fullname e))) ∧
    (∀ e, env.szOpen ar.fullname = Except.error e →
      ar.loadFilesIn7ZArchive env = (ar, some (GoError.wrapped ar.fullname e))) ∧
    (∀ e, env.tgzOpen ar.fullname = Except.error e →
      ar.loadFilesInTgzArchive env = (ar, some (GoError.wrapped ar.fullname e))) ∧
    (∀ entries, env.zipOpen ar.fullname = Except.ok entries →
      (ar.loadFilesInZipArchive env).2 = none) ∧
    (∀ entries, env.szOpen ar.fullname = Except.ok entries →
      (ar.loadFilesIn7ZArchive env).2 = none) ∧
    (∀ headers tEnd, env.tgzOpen ar.fullname = Except.ok (headers, tEnd) →
      tEnd ≠ GoError.eof →
      (ar.loadFilesInTgzArchive env).2 = some tEnd ∧
      (ar.loadFilesInTgzArchive env).1.files = ar.files ++ headers.map (fun hd =>
        ⟨ar.fullname, ArchiveType.ARCHIVE_TGZ, hd.name, hd.size, false,
         hd.fileInfoMode, hd.modTime⟩)) := by
  refine ⟨fun e h => loadZip_err env ar e h,
    fun e h => loadSz_err env ar e h,
    fun e h => loadTgz_err env ar e h,
    fun entries h => by rw [loadZip_ok env ar entries h],
    fun entries h => by rw [loadSz_ok env ar entries h],
    fun headers tEnd h hne => ?_⟩
  rw [loadTgz_ok env ar headers tEnd h]
  simp [hne]

/-- Witness for C5: a failing zip open returns the path-wrapping error
and appends nothing, while a mid-stream tgz failure surfaces its error
with the one already-read header still cataloged. -/
theorem catalog_failure_modes_witness :
    ArchiveInfo.loadFilesInZipArchive failZipEnv wAr =
      (wAr, some (GoError.wrapped "/w/a.zip" (GoError.ioError "bad"))) ∧
    (ArchiveInfo.loadFilesInTgzArchive failZipEnv wAr).2 =
      some (GoError.ioError "mid") ∧
    (ArchiveInfo.loadFilesInTgzArchive failZipEnv wAr).1.files ≠ [] := by
  refine ⟨(catalog_failure_modes failZipEnv wAr).1 (GoError.ioError "bad") rfl, ?_, ?_⟩
  · exact ((catalog_failure_modes failZipEnv wAr).2.2.2.2.2 [tHdr] (GoError.ioError "mid")
      rfl (by decide)).1
  · have h := ((catalog_failure_modes failZipEnv wAr).2.2.2.2.2 [tHdr] (GoError.ioError "mid")
      rfl (by decide)).2
    rw [h]
    decide

/-- Claim C4 (amended): extraction of an entry whose name matches no
codec entry completes the scan and returns the untouched zero-filled
buffer of length `entry.size`; zip and 7z return it with no error, while
tgz returns it together with the scan's terminal error. -/
theorem extract_no_match (env : Env) (af : ArchivedFile) :
    (∀ entries, env.zipOpen af.archivefile = Except.ok entries →
      (∀ z ∈ entries, z.name ≠ af.name) →
      af.extractZipFileBytes env = (some (List.replicate af.size 0), none)) ∧
    (∀ entries, env.szOpen af.archivefile = Except.ok entries →
      (∀ z ∈ entries, z.name ≠ af.name) →
      af.extract7ZFileBytes env = (some (List.replicate af.size 0), none)) ∧
    (∀ headers tEnd, env.tgzOpen af.archivefile = Except.ok (headers, tEnd) →
      (∀ hd ∈ headers, hd.name ≠ af.name) →
      af.extractTgzFileBytes env = (some (List.replicate af.size 0), some tEnd)) := by
  refine ⟨?_, ?_, ?_⟩
  · intro entries hopen hno
    have hf : entries.find? (fun z => z.name == af.name) = none :=
      List.find?_eq_none.mpr (fun x hx => by simpa using hno x hx)
    simp [ArchivedFile.extractZipFileBytes, hopen, hf]
  · intro entries hopen hno
    have hf : entries.find? (fun z => z.name == af.name) = none :=
      List.find?_eq_none.mpr (fun x hx => by simpa using hno x hx)
    simp [ArchivedFile.extract7ZFileBytes, hopen, hf]
  · intro headers tEnd hopen hno
    have hf : headers.find? (fun hd => hd.name == af.name) = none :=
      List.find?_eq_none.mpr (fun x hx => by simpa using hno x hx)
    simp [ArchivedFile.extractTgzFileBytes, hopen, hf]

/-- Witness for C4 (amended): the missing name `zz` with recorded size 2
yields the two-byte zeroed buffer, and the tgz scan's clean-end error. -/
theorem extract_no_match_witness :
    ArchivedFile.extractTgzFileBytes sampleEnv c4Af =
      (some [0, 0], some GoError.eof) := by
  have h := (extract_no_match sampleEnv c4Af).2.2 [tHdr] GoError.eof rfl (by decide)
  exact h

/-- Counterexample for C4 as stated: on this no-match entry of recorded
size 2, `GetBytes` returns a sequence of length 2 (not zero-length) and
a non-`nil` error. -/
theorem extract_no_match_counterexample :
    ArchivedFile.GetBytes sampleEnv c4Af = (some [0, 0], some GoError.eof) ∧
    ArchivedFile.GetBytes sampleEnv c4Af ≠ (some [], none) ∧
    ([0, 0] : List Nat).length ≠ 0 := by
  refine ⟨by decide, by decide, by decide⟩

/-- Claim C2: on a readable file of at least 5 bytes, detection is
determined by the leading bytes alone: the zip signature yields
`ARCHIVE_ZIP`, the 7z signature `ARCHIVE_7Z`, the gzip signature
`ARCHIVE_TGZ`, and any other leading bytes `ARCHIVE_NA` — with no
error in every case. -/
theorem detect_signatures (env : Env) (ar : ArchiveInfo) (contents : List Nat)
    (hopen : env.openFile ar.fullname = Except.ok contents)
    (hsize : 5 ≤ ar.size) (hlen : 5 ≤ contents.length) :
    ((contents.getD 0 0 = 0x50 ∧ contents.getD 1 0 = 0x4B ∧
      contents.getD 2 0 = 0x03 ∧ contents.getD 3 0 = 0x04) →
      ArchiveInfo.getArchiveType env ar =
        ({ ar with archiveType := ArchiveType.ARCHIVE_ZIP }, none)) ∧
    ((contents.getD 0 0 = 0x37 ∧ contents.getD 1 0 = 0x7A ∧
      contents.getD 2 0 = 0xBC ∧ contents.getD 3 0 = 0xAF) →
      ArchiveInfo.getArchiveType env ar =
        ({ ar with archiveType := ArchiveType.ARCHIVE_7Z }, none)) ∧
    ((contents.getD 0 0 = 0x1F ∧ contents.getD 1 0 = 0x8B) →
      ArchiveInfo.getArchiveType env ar =
        ({ ar with archiveType := ArchiveType.ARCHIVE_TGZ }, none)) ∧
    ((¬(contents.getD 0 0 = 0x50 ∧ contents.getD 1 0 = 0x4B ∧
        contents.getD 2 0 = 0x03 ∧ contents.getD 3 0 = 0x04) ∧
      ¬(contents.getD 0 0 = 0x37 ∧ contents.getD 1 0 = 0x7A ∧
        contents.getD 2 0 = 0xBC ∧ contents.getD 3 0 = 0xAF) ∧
      ¬(contents.getD 0 0 = 0x1F ∧ contents.getD 1 0 = 0x8B)) →
      ArchiveInfo.getArchiveType env ar =
        ({ ar with archiveType := ArchiveType.ARCHIVE_NA }, none)) := by
  have h5 : ¬ ar.size < 5 := by omega
  have hnil : contents ≠ [] := by
    intro h
    rw [h] at hlen
    simp at hlen
  have hempty : contents.isEmpty = false := by
    rcases contents with _ | ⟨c, cs⟩
    · exact absurd rfl hnil
    · rfl
  have hb : ∀ i, i < 5 → (readInto 5 contents).getD i 0 = contents.getD i 0 := by
    intro i hi
    have h0 : 5 - contents.length = 0 := by omega
    have ht : (contents.take 5)[i]? = contents[i]? := by
      rw [List.getElem?_take]
      simp [hi]
    simp [readInto, h0, List.getD_eq_getD_get?, List.get?_eq_getElem?, ht]
  have hred : ArchiveInfo.getArchiveType env ar =
      ({ ar with archiveType :=
        if contents.getD 0 0 = 0x50 ∧ contents.getD 1 0 = 0x4B ∧
           contents.getD 2 0 = 0x03 ∧ contents.getD 3 0 = 0x04 then
          ArchiveType.ARCHIVE_ZIP
        else if contents.getD 0 0 = 0x37 ∧ contents.getD 1 0 = 0x7A ∧
                contents.getD 2 0 = 0xBC ∧ contents.getD 3 0 = 0xAF then
          ArchiveType.ARCHIVE_7Z
        else if contents.getD 0 0 = 0x1F ∧ contents.getD 1 0 = 0x8B then
          ArchiveType.ARCHIVE_TGZ
        else ArchiveType.ARCHIVE_NA }, none) := by
    unfold ArchiveInfo.getArchiveType
    rw [if_neg h5, hopen]
    dsimp only
    rw [if_neg (by simp [hempty])]
    rw [hb 0 (by omega), hb 1 (by omega), hb 2 (by omega), hb 3 (by omega)]
  refine ⟨?_, ?_, ?_, ?_⟩
  · intro hsig
    rw [hred, if_pos hsig]
  · intro hsig
    rw [hred, if_neg (by rintro ⟨hA, _⟩; rw [hA] at hsig; omega), if_pos hsig]
  · intro hsig
    rw [hred, if_neg (by rintro ⟨hA, _⟩; rw [hA] at hsig; omega),
        if_neg (by rintro ⟨hA, _⟩; rw [hA] at hsig; omega), if_pos hsig]
  · intro hsig
    rw [hred, if_neg hsig.1, if_neg hsig.2.1, if_neg hsig.2.2]

/-- Witness for C2: zip-magic leading bytes classify as `ARCHIVE_ZIP`. -/
theorem detect_signatures_witness :
    ArchiveInfo.getArchiveType sampleEnv wAr2 =
      ({ wAr2 with archiveType := ArchiveType.ARCHIVE_ZIP }, none) :=
  (detect_signatures sampleEnv wAr2 [0x50, 0x4B, 0x03, 0x04, 0x00]
    rfl (by decide) (by decide)).1 (by decide)

/-- Claim C1: under a well-formed codec listing (distinct entry names,
per-entry sizes equal to payload lengths, readable entries), every entry
produced by cataloging extracts, via `GetBytes`, to exactly the payload
the codec reports for that entry's name, with length equal to the
entry's recorded size. -/
theorem catalog_extract_roundtrip (env : Env) (ar : ArchiveInfo)
    (h0 : ar.files = []) :
    (∀ entries, env.zipOpen ar.fullname = Except.ok entries →
      (entries.map ZipEntry.name).Nodup →
      (∀ z ∈ entries, z.uncompressedSize64 = z.payload.length ∧ z.openErr = none) →
      ∀ af ∈ (ar.loadFilesInZipArchive env).1.files,
        ∃ z ∈ entries, z.name = af.name ∧
          af.GetBytes env = (some z.payload, none) ∧ z.payload.length = af.size) ∧
    (∀ entries, env.szOpen ar.fullname = Except.ok entries →
      (entries.map SzEntry.name).Nodup →
      (∀ z ∈ entries, z.size = z.payload.length ∧ z.openErr = none) →
      ∀ af ∈ (ar.loadFilesIn7ZArchive env).1.files,
        ∃ z ∈ entries, z.name = af.name ∧
          af.GetBytes env = (some z.payload, none) ∧ z.payload.length = af.size) ∧
    (∀ headers tEnd, env.tgzOpen ar.fullname = Except.ok (headers, tEnd) →
      (headers.map TarHeader.name).Nodup →
      (∀ hd ∈ headers, hd.size = hd.payload.length) →
      ∀ af ∈ (ar.loadFilesInTgzArchive env).1.files,
        ∃ hd ∈ headers, hd.name = af.name ∧
          af.GetBytes env = (some hd.payload, none) ∧ hd.payload.length = af.size) := by
  refine ⟨?_, ?_, ?_⟩
  · intro entries hopen hnd hwf af haf
    rw [loadZip_ok env ar entries hopen] at haf
    rw [h0] at haf
    simp only [List.nil_append, List.mem_map] at haf
    obtain ⟨z, hz, rfl⟩ := haf
    have hfind : entries.find? (fun e => e.name == z.name) = some z :=
      find?_nodup_name ZipEntry.name entries z hz hnd
    have hsz := (hwf z hz).1
    have hoe := (hwf z hz).2
    refine ⟨z, hz, rfl, ?_, ?_⟩
    · simp [ArchivedFile.GetBytes, ArchivedFile.extractZipFileBytes, hopen,
        hfind, hoe, hsz, readInto_length_self]
    · exact hsz.symm
  · intro entries hopen hnd hwf af haf
    rw [loadSz_ok env ar entries hopen] at haf
    rw [h0] at haf
    simp only [List.nil_append, List.mem_map] at haf
    obtain ⟨z, hz, rfl⟩ := haf
    have hfind : entries.find? (fun e => e.name == z.name) = some z :=
      find?_nodup_name SzEntry.name entries z hz hnd
    have hsz := (hwf z hz).1
    have hoe := (hwf z hz).2
    refine ⟨z, hz, rfl, ?_, ?_⟩
    · simp [ArchivedFile.GetBytes, ArchivedFile.extract7ZFileBytes, hopen,
        hfind, hoe, hsz, readInto_length_self]
    · exact hsz.symm
  · intro headers tEnd hopen hnd hwf af haf
    rw [loadTgz_ok env ar headers tEnd hopen] at haf
    rw [h0] at haf
    simp only [List.nil_append, List.mem_map] at haf
    obtain ⟨hd, hz, rfl⟩ := haf
    have hfind : headers.find? (fun e => e.name == hd.name) = some hd :=
      find?_nodup_name TarHeader.name headers hd hz hnd
    have hsz := hwf hd hz
    refine ⟨hd, hz, rfl, ?_, ?_⟩
    · simp [ArchivedFile.GetBytes, ArchivedFile.extractTgzFileBytes, hopen,
        hfind, hsz, readInto_length_self]
    · exact hsz.symm

/-- Witness for C1: the cataloged zip entry `f.txt` of size 2 extracts
to its 2-byte codec payload. -/
theorem catalog_extract_roundtrip_witness :
    wAfZ ∈ (ArchiveInfo.loadFilesInZipArchive sampleEnv wAr).1.files ∧
    ArchivedFile.GetBytes sampleEnv wAfZ = (some [7, 9], none) ∧
    [7, 9].length = wAfZ.size := by
  refine ⟨by decide, ?_, by decide⟩
  have h := (catalog_extract_roundtrip sampleEnv wAr rfl).1 [zEnt] rfl
    (by decide) (by decide) wAfZ (by decide)
  obtain ⟨z, hz, hname, hbytes, hlen⟩ := h
  have hz1 : z = zEnt := by
    rcases List.mem_singleton.mp hz with h
    exact h
  rw [hz1] at hbytes
  exact hbytes

/-- A stat failure aborts `statAndCatalog` with that error. -/
theorem statAndCatalog_stat_err (env : Env) (ar0 : ArchiveInfo) (e : GoError)
    (hstat : env.statSize (env.joinFn ar0.path ar0.name) = Except.error e) :
    statAndCatalog env ar0 =
      ({ ar0 with fullname := env.joinFn ar0.path ar0.name }, some e) := by
  unfold statAndCatalog
  simp [hstat]

/-- A stat success followed by a sniff failure aborts `statAndCatalog`
with the sniff error. -/
theorem statAndCatalog_gat_err (env : Env) (ar0 : ArchiveInfo) (sz : Nat)
    (e : GoError) (ar2 : ArchiveInfo)
    (hstat : env.statSize (env.joinFn ar0.path ar0.name) = Except.ok sz)
    (hgat : ArchiveInfo.getArchiveType env
      { ar0 with fullname := env.joinFn ar0.path ar0.name, size := sz } = (ar2, some e)) :
    statAndCatalog env ar0 = (ar2, some e) := by
  unfold statAndCatalog
  simp [hstat, hgat]

/-- A stat success followed by a sniff success hands over to the
catalog switch. -/
theorem statAndCatalog_gat_ok (env : Env) (ar0 : ArchiveInfo) (sz : Nat)
    (ar2 : ArchiveInfo)
    (hstat : env.statSize (env.joinFn ar0.path ar0.name) = Except.ok sz)
    (hgat : ArchiveInfo.getArchiveType env
      { ar0 with fullname := env.joinFn ar0.path ar0.name, size := sz } = (ar2, none)) :
    statAndCatalog env ar0 = catalogStep env ar2 := by
  unfold statAndCatalog
  simp [hstat, hgat]

/-- The catalog switch is the identity on `ARCHIVE_UNINIT` and
`ARCHIVE_NA` records. -/
theorem catalogStep_default (env : Env) (ar : ArchiveInfo)
    (h : ar.archiveType = ArchiveType.ARCHIVE_UNINIT ∨
         ar.archiveType = ArchiveType.ARCHIVE_NA) :
    catalogStep env ar = (ar, none) := by
  unfold catalogStep
  rcases h with h | h <;> rw [h]

/-- The catalog switch dispatches `ARCHIVE_ZIP` to the zip cataloger. -/
theorem catalogStep_zip (env : Env) (ar : ArchiveInfo)
    (h : ar.archiveType = ArchiveType.ARCHIVE_ZIP) :
    catalogStep env ar = ar.loadFilesInZipArchive env := by
  unfold catalogStep
  rw [h]

/-- The catalog switch dispatches `ARCHIVE_TGZ` to the tgz cataloger. -/
theorem catalogStep_tgz (env : Env) (ar : ArchiveInfo)
    (h : ar.archiveType = ArchiveType.ARCHIVE_TGZ) :
    catalogStep env ar = ar.loadFilesInTgzArchive env := by
  unfold catalogStep
  rw [h]

/-- The catalog switch dispatches `ARCHIVE_7Z` to the 7z cataloger. -/
theorem catalogStep_sz (env : Env) (ar : ArchiveInfo)
    (h : ar.archiveType = ArchiveType.ARCHIVE_7Z) :
    catalogStep env ar = ar.loadFilesIn7ZArchive env := by
  unfold catalogStep
  rw [h]

/-- Behaviour of the post-resolution pipeline on an initially empty
catalog: a final type of `ARCHIVE_NA` or `ARCHIVE_UNINIT` leaves the
catalog empty and makes the result independent of the codec openers,
and a final type of `ARCHIVE_ZIP` or `ARCHIVE_7Z` with a non-`nil`
error also leaves the catalog empty. -/
theorem statAndCatalog_spec (env : Env) (ar0 : ArchiveInfo)
    (z : String → Except GoError (List ZipEntry))
    (s : String → Except GoError (List SzEntry))
    (t : String → Except GoError (List TarHeader × GoError))
    (h0 : ar0.files = []) :
    (((statAndCatalog env ar0).1.archiveType = ArchiveType.ARCHIVE_NA ∨
      (statAndCatalog env ar0).1.archiveType = ArchiveType.ARCHIVE_UNINIT) →
      (statAndCatalog env ar0).1.files = [] ∧
      statAndCatalog { env with zipOpen := z, szOpen := s, tgzOpen := t } ar0
        = statAndCatalog env ar0) ∧
    (((statAndCatalog env ar0).1.archiveType = ArchiveType.ARCHIVE_ZIP ∨
      (statAndCatalog env ar0).1.archiveType = ArchiveType.ARCHIVE_7Z) →
      (statAndCatalog env ar0).2 ≠ none →
      (statAndCatalog env ar0).1.files = []) := by
  rcases hstat : env.statSize (env.joinFn ar0.path ar0.name) with e | sz
  · have hA := statAndCatalog_stat_err env ar0 e hstat
    have hB := statAndCatalog_stat_err
      { env with zipOpen := z, szOpen := s, tgzOpen := t } ar0 e hstat
    rw [hA, hB]
    exact ⟨fun _ => ⟨by simp [h0], rfl⟩, fun _ _ => by simp [h0]⟩
  · rcases hgat : ArchiveInfo.getArchiveType env
      { ar0 with fullname := env.joinFn ar0.path ar0.name, size := sz } with ⟨ar2, eo⟩
    have hfiles2 : ar2.files = [] := by
      have h := getArchiveType_files env
        { ar0 with fullname := env.joinFn ar0.path ar0.name, size := sz }
      rw [hgat] at h
      simpa [h0] using h
    cases eo with
    | some e =>
      have hA := statAndCatalog_gat_err env ar0 sz e ar2 hstat hgat
      have hB := statAndCatalog_gat_err
        { env with zipOpen := z, szOpen := s, tgzOpen := t } ar0 sz e ar2 hstat
        ((getArchiveType_codec_indep env _ z s t).trans hgat)
      rw [hA, hB]
      exact ⟨fun _ => ⟨hfiles2, rfl⟩, fun _ _ => hfiles2⟩
    | none =>
      have hA := statAndCatalog_gat_ok env ar0 sz ar2 hstat hgat
      have hB := statAndCatalog_gat_ok
        { env with zipOpen := z, szOpen := s, tgzOpen := t } ar0 sz ar2 hstat
        ((getArchiveType_codec_indep env _ z s t).trans hgat)
      rw [hA, hB]
      cases hT : ar2.archiveType with
      | ARCHIVE_UNINIT =>
        rw [catalogStep_default env ar2 (Or.inl hT),
            catalogStep_default { env with zipOpen := z, szOpen := s, tgzOpen := t } ar2 (Or.inl hT)]
        exact ⟨fun _ => ⟨hfiles2, rfl⟩, fun _ hne => absurd rfl hne⟩
      | ARCHIVE_NA =>
        rw [catalogStep_default env ar2 (Or.inr hT),
            catalogStep_default { env with zipOpen := z, szOpen := s, tgzOpen := t } ar2 (Or.inr hT)]
        exact ⟨fun _ => ⟨hfiles2, rfl⟩, fun _ hne => absurd rfl hne⟩
      | ARCHIVE_ZIP =>
        rw [catalogStep_zip env ar2 hT]
        constructor
        · intro htype
          exfalso
          have hload := (load_archiveType env ar2).1
          rw [hT] at hload
          rcases htype with h | h <;> rw [h] at hload <;> cases hload
        · intro _ hne
          rcases hz2 : env.zipOpen ar2.fullname with e2 | ents
          · rw [loadZip_err env ar2 e2 hz2]
            simpa using hfiles2
          · rw [loadZip_ok env ar2 ents hz2] at hne
            simp at hne
      | ARCHIVE_TGZ =>
        rw [catalogStep_tgz env ar2 hT]
        constructor
        · intro htype
          exfalso
          have hload := (load_archiveType env ar2).2.2
          rw [hT] at hload
          rcases htype with h | h <;> rw [h] at hload <;> cases hload
        · intro htype _
          exfalso
          have hload := (load_archiveType env ar2).2.2
          rw [hT] at hload
          rcases htype with h | h <;> rw [h] at hload <;> cases hload
      | ARCHIVE_7Z =>
        rw [catalogStep_sz env ar2 hT]
        constructor
        · intro htype
          exfalso
          have hload := (load_archiveType env ar2).2.1
          rw [hT] at hload
          rcases htype with h | h <;> rw [h] at hload <;> cases hload
        · intro _ hne
          rcases hz2 : env.szOpen ar2.fullname with e2 | ents
          · rw [loadSz_err env ar2 e2 hz2]
            simpa using hfiles2
          · rw [loadSz_ok env ar2 ents hz2] at hne
            simp at hne

/-- `GetArchiveInfo` on a bare name resolves against the working
directory. -/
theorem GetArchiveInfo_no_sep (env : Env) (path : String)
    (hc : strContainsChar path env.pathSep = false) :
    GetArchiveInfo env path =
      statAndCatalog env ⟨env.cwd, path, "", 0, ArchiveType.ARCHIVE_UNINIT, []⟩ := by
  unfold GetArchiveInfo
  simp [hc]

/-- `GetArchiveInfo` on a separated path with a non-empty resolved
directory splits it into directory and base name. -/
theorem GetArchiveInfo_sep_ok (env : Env) (path : String)
    (hc : strContainsChar path env.pathSep = true)
    (hd : (env.dirFn path).length ≠ 0) :
    GetArchiveInfo env path =
      statAndCatalog env
        ⟨env.dirFn path, env.baseFn path, "", 0, ArchiveType.ARCHIVE_UNINIT, []⟩ := by
  unfold GetArchiveInfo
  simp [hc, hd]

/-- `GetArchiveInfo` on a separated path whose resolved directory is
empty returns the zero-valued handle with a `nil` error. -/
theorem GetArchiveInfo_sep_empty (env : Env) (path : String)
    (hc : strContainsChar path env.pathSep = true)
    (hd : (env.dirFn path).length = 0) :
    GetArchiveInfo env path =
      (⟨"", "", "", 0, ArchiveType.ARCHIVE_UNINIT, []⟩, none) := by
  unfold GetArchiveInfo
  simp [hc, hd]

/-- Claim C6 (amended): a handle whose detected type is `ARCHIVE_NA` or
`ARCHIVE_UNINIT` has an empty catalog, every lookup on it misses, and no
cataloger is invoked (the result is unchanged under arbitrary codec
openers); a ZIP or 7z handle returned with a non-`nil` error also has an
empty catalog. (A failed gzipped-tar cataloging, by contrast, may leave
already-appended entries — see the counterexample.) -/
theorem entries_empty_invariant (env : Env) (path : String)
    (z : String → Except GoError (List ZipEntry))
    (s : String → Except GoError (List SzEntry))
    (t : String → Except GoError (List TarHeader × GoError)) :
    (((GetArchiveInfo env path).1.archiveType = ArchiveType.ARCHIVE_NA ∨
      (GetArchiveInfo env path).1.archiveType = ArchiveType.ARCHIVE_UNINIT) →
      (GetArchiveInfo env path).1.files = [] ∧
      (∀ n, (GetArchiveInfo env path).1.File n = none) ∧
      GetArchiveInfo { env with zipOpen := z, szOpen := s, tgzOpen := t } path
        = GetArchiveInfo env path) ∧
    (((GetArchiveInfo env path).1.archiveType = ArchiveType.ARCHIVE_ZIP ∨
      (GetArchiveInfo env path).1.archiveType = ArchiveType.ARCHIVE_7Z) →
      (GetArchiveInfo env path).2 ≠ none →
      (GetArchiveInfo env path).1.files = []) := by
  rcases hc : strContainsChar path env.pathSep with _ | _
  · have hA := GetArchiveInfo_no_sep env path hc
    have hB := GetArchiveInfo_no_sep
      { env with zipOpen := z, szOpen := s, tgzOpen := t } path hc
    rw [hA, hB]
    have hspec := statAndCatalog_spec env
      ⟨env.cwd, path, "", 0, ArchiveType.ARCHIVE_UNINIT, []⟩ z s t rfl
    refine ⟨fun htype => ?_, hspec.2⟩
    obtain ⟨hf, hindep⟩ := hspec.1 htype
    exact ⟨hf, fun n => File_empty _ hf n, hindep⟩
  · by_cases hd : (env.dirFn path).length = 0
    · have hA := GetArchiveInfo_sep_empty env path hc hd
      have hB := GetArchiveInfo_sep_empty
        { env with zipOpen := z, szOpen := s, tgzOpen := t } path hc hd
      rw [hA, hB]
      exact ⟨fun _ => ⟨rfl, fun n => File_empty _ rfl n, rfl⟩,
        fun _ hne => absurd rfl hne⟩
    · have hA := GetArchiveInfo_sep_ok env path hc hd
      have hB := GetArchiveInfo_sep_ok
        { env with zipOpen := z, szOpen := s, tgzOpen := t } path hc hd
      rw [hA, hB]
      have hspec := statAndCatalog_spec env
        ⟨env.dirFn path, env.baseFn path, "", 0, ArchiveType.ARCHIVE_UNINIT, []⟩ z s t rfl
      refine ⟨fun htype => ?_, hspec.2⟩
      obtain ⟨hf, hindep⟩ := hspec.1 htype
      exact ⟨hf, fun n => File_empty _ hf n, hindep⟩

/-- Witness for C6 (amended): a file with unknown magic bytes is
classified `ARCHIVE_NA` and its handle has an empty catalog on which
lookups miss. -/
theorem entries_empty_invariant_witness :
    (GetArchiveInfo naBytesEnv "x.bin").1.archiveType = ArchiveType.ARCHIVE_NA ∧
    (GetArchiveInfo naBytesEnv "x.bin").1.files = [] ∧
    (GetArchiveInfo naBytesEnv "x.bin").1.File "h.txt" = none := by
  have h := (entries_empty_invariant naBytesEnv "x.bin"
    sampleEnv.zipOpen sampleEnv.szOpen sampleEnv.tgzOpen).1 (Or.inl (by decide))
  exact ⟨by decide, h.1, h.2.1 "h.txt"⟩

/-- Counterexample for C6 as stated: a gzipped-tar catalog that fails
mid-stream returns a non-`nil` error (cataloging did not succeed) while
the handle's entries list is not empty. -/
theorem entries_empty_invariant_counterexample :
    (GetArchiveInfo corruptTgzEnv "t.tgz").2 = some (GoError.ioError "corrupt") ∧
    (GetArchiveInfo corruptTgzEnv "t.tgz").1.files ≠ [] ∧
    ¬((GetArchiveInfo corruptTgzEnv "t.tgz").2 ≠ none →
      (GetArchiveInfo corruptTgzEnv "t.tgz").1.files = []) := by
  refine ⟨by decide, by decide, by decide⟩

/-- Claim C9 (amended): a separator-containing path whose resolved
directory is empty makes `GetArchiveInfo` return the zero-valued,
uninitialized handle together with a `nil` error — the invalid-path
report goes to standard output, not to the caller. -/
theorem invalid_dir_no_error (env : Env) (path : String)
    (hc : strContainsChar path env.pathSep = true)
    (hd : (env.dirFn path).length = 0) :
    GetArchiveInfo env path =
      (⟨"", "", "", 0, ArchiveType.ARCHIVE_UNINIT, []⟩, none) :=
  GetArchiveInfo_sep_empty env path hc hd

/-- Witness for C9 (amended): with a directory resolver returning the
empty string, `GetArchiveInfo "a/b"` yields the uninitialized handle and
no error. -/
theorem invalid_dir_no_error_witness :
    GetArchiveInfo emptyDirEnv "a/b" =
      (⟨"", "", "", 0, ArchiveType.ARCHIVE_UNINIT, []⟩, none) :=
  invalid_dir_no_error emptyDirEnv "a/b" (by decide) (by decide)

/-- Counterexample for C9 as stated: at this concrete input the error
component returned to the caller is `none`, so no input error is
reported to the caller. -/
theorem invalid_dir_no_error_counterexample :
    (strContainsChar "a/b" emptyDirEnv.pathSep = true) ∧
    ((emptyDirEnv.dirFn "a/b").length = 0) ∧
    (GetArchiveInfo emptyDirEnv "a/b").2 = none ∧
    (GetArchiveInfo emptyDirEnv "a/b").1.archiveType = ArchiveType.ARCHIVE_UNINIT ∧
    (GetArchiveInfo emptyDirEnv "a/b").1.size = 0 ∧
    (GetArchiveInfo emptyDirEnv "a/b").1.files = [] := by
  exact ⟨by decide, by decide, by decide, by decide, by decide, by decide⟩
